import Mathlib

/-!
Verification development for the Delta assistant backend (`delta.py`).

The development shallowly embeds the pure core of the program:

* the restricted arithmetic expression evaluator (`_safe_eval` / `_eval_node`
  together with `ALLOWED_OPERATORS` and `SAFE_NAMES`),
* the command router `process_command` and the handlers it dispatches to,
* the memory helpers `_load_memory` / `_save_memory`,
* the alarm polling loop `_alarm_thread` / `set_alarm`.

Python machine values are embedded as follows: Python integers are `Int`
(they are arbitrary precision), Python floats are idealized as exact
rationals `Rat` (every IEEE double is a rational; the operations whose
results are irrational -- the transcendental math functions and power with
fractional exponent -- are delegated to an explicit `MathHost` parameter
standing for the host math library), and Python bools are `Bool` (in Python
`bool` is a subclass of `int`, so the evaluator's `isinstance(value, (int,
float))` test accepts them).  Side effects of the router (network requests,
memory flushes, spawned background threads) are reified as an explicit list
of `Effect` values returned next to the textual reply.

Strings are processed through the character list `String.data`, mirroring
Python's character-wise string primitives.
-/

namespace Delta

/-! ## Character-list string utilities (Python string primitives) -/

/-- `pfx p l` : does list `l` start with pattern `p`?  (Python `startswith`). -/
def pfx : List Char → List Char → Bool
  | [], _ => true
  | _ :: _, [] => false
  | p :: ps, c :: cs => p == c && pfx ps cs

/-- `infx p l` : does `p` occur as a contiguous run inside `l`?  (Python `in`). -/
def infx (p : List Char) : List Char → Bool
  | [] => pfx p []
  | c :: cs => pfx p (c :: cs) || infx p cs

/-- Left-to-right, non-overlapping replacement of every occurrence of `p` by
`r` (Python `str.replace`); `fuel` bounds the recursion, instantiated with the
length of the subject. -/
def replAll (fuel : Nat) (p r : List Char) (l : List Char) : List Char :=
  match fuel, l with
  | 0, l => l
  | _, [] => []
  | fuel + 1, c :: cs =>
    if p.isEmpty then c :: cs
    else if pfx p (c :: cs) then r ++ replAll fuel p r (List.drop p.length (c :: cs))
    else c :: replAll fuel p r cs

/-- Python `str.strip`: drop whitespace from both ends. -/
def trimChars (l : List Char) : List Char :=
  ((l.dropWhile Char.isWhitespace).reverse.dropWhile Char.isWhitespace).reverse

/-- Python `str.lower` (ASCII case folding suffices for the router's inputs). -/
def lowerChars (l : List Char) : List Char := l.map Char.toLower

/-- Python `str.capitalize`: first character upper-cased, the rest lower-cased. -/
def capChars : List Char → List Char
  | [] => []
  | c :: cs => c.toUpper :: lowerChars cs

/-! String-typed wrappers used by the router embedding. -/

def sStarts (s p : String) : Bool := pfx p.data s.data

def sContains (s p : String) : Bool := infx p.data s.data

def sReplace (s p r : String) : String :=
  String.mk (replAll s.data.length p.data r.data s.data)

def sTrim (s : String) : String := String.mk (trimChars s.data)

/-- `command.lower().strip()` -- the router's normalization of an utterance. -/
def sLowerTrim (s : String) : String := String.mk (trimChars (lowerChars s.data))

def sCapitalize (s : String) : String := String.mk (capChars s.data)

/-- Value of a digit run (most significant first). -/
def digitsVal (l : List Char) : Nat :=
  l.foldl (fun a c => a * 10 + (c.toNat - 48)) 0

/-- Python `f"{n:02d}"` zero padding used by `set_alarm`. -/
def pad2 (n : Nat) : String :=
  if n < 10 then "0" ++ toString n else toString n

/-! ## The expression AST (shape of `ast.parse(expr, mode="eval").body`)

Only the node shapes the evaluator inspects are distinguished; every other
expression shape Python can parse is rejected by `_eval_node`'s final
`raise`, so the embedding groups the ones its parser can produce
(`attribute`, `subscript`) and rejects them the same way. -/

/-- A Python constant as held by an `ast.Constant` node. -/
inductive PConst where
  | pint (n : Int)
  | pfloat (q : Rat)
  | pbool (b : Bool)
  | pstr (s : String)
  | pnone
  deriving DecidableEq, Repr

/-- Binary operator node tags (`ast.Add`, `ast.Sub`, ...).  Note that the
source text `^` parses to `bitXor` (`ast.BitXor`) and `**` to `pow`
(`ast.Pow`). -/
inductive PBinOp where
  | add | sub | mult | div | pow | mod | floorDiv
  | bitXor | bitAnd | bitOr | lshift | rshift | matmul
  deriving DecidableEq, Repr

/-- Unary operator node tags; only `usub` (`ast.USub`) is allow-listed. -/
inductive PUnOp where
  | usub | uadd | invert
  deriving DecidableEq, Repr

/-- Expression nodes. -/
inductive PExpr where
  | const (c : PConst)
  | binop (o : PBinOp) (l r : PExpr)
  | unop (o : PUnOp) (e : PExpr)
  | call (f : PExpr) (args : List PExpr)
  | name (id : String)
  | attr (e : PExpr) (id : String)
  | subscript (e : PExpr) (ix : PExpr)
  deriving Repr

/-! ## Values and the host math library -/

/-- A Python value the evaluator can produce: an int, a float (idealized as
an exact rational), a bool, or one of the allow-listed math *function
objects* (looking up `sqrt` as a bare `ast.Name` returns the function
itself, uncalled). -/
inductive PyVal where
  | vint (n : Int)
  | vfloat (q : Rat)
  | vbool (b : Bool)
  | vfun (id : String)
  deriving DecidableEq, Repr

/-- The host math library (`math` module) as seen through `SAFE_NAMES`.
Fields are the float-valued functions whose results are irrational in
general, hence not computable inside the exact-rational idealization; the
definitions below constrain them only where mathematically exact results
exist (for instance `sqrt` on perfect squares, via hypotheses of the
theorems). -/
structure MathHost where
  sqrt : Rat → Rat
  sin : Rat → Rat
  cos : Rat → Rat
  tan : Rat → Rat
  log : Rat → Rat
  log10 : Rat → Rat
  logBase : Rat → Rat → Rat
  powf : Rat → Rat → Rat
  pi : Rat
  e : Rat

/-- Python truthiness-free int view: ints and bools are `int`-like
(`bool` is a subclass of `int`). -/
def toIntLike : PyVal → Option Int
  | .vint n => some n
  | .vbool b => some (if b then 1 else 0)
  | _ => none

/-- Numeric view used once a float is involved (Python coerces ints and
bools to float). -/
def toQ : PyVal → Option Rat
  | .vint n => some n
  | .vfloat q => some q
  | .vbool b => some (if b then 1 else 0)
  | .vfun _ => none

/-- `op.pow` when both operands are `int`-like: a non-negative exponent
stays an int; a negative exponent produces a float (`2 ** -1 == 0.5`),
raising `ZeroDivisionError` on base 0. -/
def intPow (x y : Int) : Option PyVal :=
  if 0 ≤ y then some (.vint (x ^ y.toNat))
  else if x = 0 then none
  else some (.vfloat ((x : Rat) ^ y))

/-- The integer branch of each `ALLOWED_OPERATORS` entry (Python's own
integer semantics: `//` is floor division `Int.fdiv`, `%` follows the
divisor's sign `Int.fmod`, `/` always yields a float).  Operators outside
the allow-list fall through `_eval_node` to `raise`, embedded as `none`. -/
def intBin : PBinOp → Int → Int → Option PyVal
  | .add, x, y => some (.vint (x + y))
  | .sub, x, y => some (.vint (x - y))
  | .mult, x, y => some (.vint (x * y))
  | .div, x, y => if y = 0 then none else some (.vfloat ((x : Rat) / (y : Rat)))
  | .floorDiv, x, y => if y = 0 then none else some (.vint (Int.fdiv x y))
  | .mod, x, y => if y = 0 then none else some (.vint (Int.fmod x y))
  | .pow, x, y => intPow x y
  | _, _, _ => none

/-- `op.pow` in float context.  An integral exponent is exact rational
`zpow`; a fractional exponent on a positive base is the host's `powf`; on a
negative base CPython produces a *complex* value, which is outside this
numeric model and embedded as failure (no claim depends on it). -/
def floatPow (h : MathHost) (x y : Rat) : Option PyVal :=
  if y.den = 1 then
    if x = 0 ∧ y.num < 0 then none else some (.vfloat (x ^ y.num))
  else if 0 < x then some (.vfloat (h.powf x y))
  else if x = 0 then (if 0 < y then some (.vfloat 0) else none)
  else none

/-- The float branch of each `ALLOWED_OPERATORS` entry: `//` is
`floor(x / y)` kept as a float, `%` is `x - y * floor(x / y)`. -/
def floatBin (h : MathHost) : PBinOp → Rat → Rat → Option PyVal
  | .add, x, y => some (.vfloat (x + y))
  | .sub, x, y => some (.vfloat (x - y))
  | .mult, x, y => some (.vfloat (x * y))
  | .div, x, y => if y = 0 then none else some (.vfloat (x / y))
  | .floorDiv, x, y => if y = 0 then none else some (.vfloat (⌊x / y⌋ : Int))
  | .mod, x, y => if y = 0 then none else some (.vfloat (x - y * (⌊x / y⌋ : Int)))
  | .pow, x, y => floatPow h x y
  | _, _, _ => none

/-- `ALLOWED_OPERATORS[type(node.op)](left, right)`: ints (and bools) use
integer semantics, otherwise both operands are coerced to float; function
objects raise `TypeError`, collapsed to failure. -/
def pyBinOp (h : MathHost) (o : PBinOp) (a b : PyVal) : Option PyVal :=
  match toIntLike a, toIntLike b with
  | some x, some y => intBin o x y
  | _, _ =>
    match toQ a, toQ b with
    | some x, some y => floatBin h o x y
    | _, _ => none

/-- `op.neg` (the only allow-listed unary operator). -/
def pyNeg : PyVal → Option PyVal
  | .vint n => some (.vint (-n))
  | .vfloat q => some (.vfloat (-q))
  | .vbool b => some (.vint (-(if b then 1 else 0)))
  | .vfun _ => none

/-- The keys of `SAFE_NAMES`: ten math functions plus the constants. -/
def safeNameKeys : List String :=
  ["sin", "cos", "tan", "sqrt", "log", "log10", "ceil", "floor",
   "factorial", "fabs", "pi", "e"]

/-- Calling `SAFE_NAMES[name](*args)`.  Domain errors raised by the `math`
functions (`sqrt` of a negative, `log` of a non-positive, `factorial` of a
negative or of a float, a two-argument `log` with base 1) and arity
`TypeError`s are all collapsed to failure, exactly as `_safe_eval`'s
catch-all does.  `pi` and `e` are floats, not callable. -/
def applyFn (h : MathHost) : String → List PyVal → Option PyVal
  | "sqrt", [v] =>
    match toQ v with
    | some q => if q < 0 then none else some (.vfloat (h.sqrt q))
    | none => none
  | "sin", [v] => (toQ v).map fun q => .vfloat (h.sin q)
  | "cos", [v] => (toQ v).map fun q => .vfloat (h.cos q)
  | "tan", [v] => (toQ v).map fun q => .vfloat (h.tan q)
  | "log", [v] =>
    match toQ v with
    | some q => if q ≤ 0 then none else some (.vfloat (h.log q))
    | none => none
  | "log", [v, b] =>
    match toQ v, toQ b with
    | some q, some qb =>
      if q ≤ 0 ∨ qb ≤ 0 ∨ qb = 1 then none else some (.vfloat (h.logBase q qb))
    | _, _ => none
  | "log10", [v] =>
    match toQ v with
    | some q => if q ≤ 0 then none else some (.vfloat (h.log10 q))
    | none => none
  | "ceil", [v] =>
    match v with
    | .vint n => some (.vint n)
    | .vbool b => some (.vint (if b then 1 else 0))
    | .vfloat q => some (.vint ⌈q⌉)
    | .vfun _ => none
  | "floor", [v] =>
    match v with
    | .vint n => some (.vint n)
    | .vbool b => some (.vint (if b then 1 else 0))
    | .vfloat q => some (.vint ⌊q⌋)
    | .vfun _ => none
  | "factorial", [v] =>
    match v with
    | .vint n => if 0 ≤ n then some (.vint (Nat.factorial n.toNat : Nat)) else none
    | .vbool _ => some (.vint 1)
    | _ => none
  | "fabs", [v] => (toQ v).map fun q => .vfloat |q|
  | _, _ => none

/-- `SAFE_NAMES[node.id]` for a bare `ast.Name`: the constants are floats,
the ten function entries are the function objects themselves. -/
def lookupName (h : MathHost) (id : String) : Option PyVal :=
  if id = "pi" then some (.vfloat h.pi)
  else if id = "e" then some (.vfloat h.e)
  else if safeNameKeys.contains id then some (.vfun id)
  else none

mutual

/-- `_eval_node` (delta.py lines 148-172).  Each `isinstance` arm is a
constructor case; every fall-through reaches the final
`raise ValueError("Unsupported expression")`, embedded as `none`.  A
constant is returned only if it is an int or float (Python bools pass this
test, being a subclass of int); binary and unary operators must be in
`ALLOWED_OPERATORS`; a call's target must be a bare name in `SAFE_NAMES`;
a bare name must be in `SAFE_NAMES`.  Nothing else -- attributes,
subscripts, or any other shape -- is ever evaluated, so no host capability
outside the fixed table is reachable. -/
def evalNode (h : MathHost) : PExpr → Option PyVal
  | .const (.pint n) => some (.vint n)
  | .const (.pfloat q) => some (.vfloat q)
  | .const (.pbool b) => some (.vbool b)
  | .const (.pstr _) => none
  | .const .pnone => none
  | .binop o l r =>
    match evalNode h l with
    | some lv =>
      match evalNode h r with
      | some rv => pyBinOp h o lv rv
      | none => none
    | none => none
  | .unop o e =>
    match o with
    | .usub =>
      match evalNode h e with
      | some v => pyNeg v
      | none => none
    | _ => none
  | .call f args =>
    match f with
    | .name id =>
      if safeNameKeys.contains id then
        match evalList h args with
        | some vs => applyFn h id vs
        | none => none
      else none
    | _ => none
  | .name id => lookupName h id
  | .attr _ _ => none
  | .subscript _ _ => none

/-- Left-to-right evaluation of a call's argument list. -/
def evalList (h : MathHost) : List PExpr → Option (List PyVal)
  | [] => some []
  | a :: as =>
    match evalNode h a with
    | some v =>
      match evalList h as with
      | some vs => some (v :: vs)
      | none => none
    | none => none

end

/-! ## `ast.parse(expr, mode="eval")`

The parser is the host's (`ast.parse`), not repository code; it is embedded
faithfully for the expression fragment the evaluator can meet: numeric
literals (with fraction and exponent), string literals, names, the keyword
constants, the binary/unary operator tokens with Python's precedence
(notably `^` is bitwise xor, far *below* `*`, while power is `**`), calls,
attribute access, and subscripts.  Constructs outside this fragment
(comparisons, boolean operators, lambdas, tuples, ...) make the embedded
parser fail; the real parser accepts some of them only for `_eval_node` to
reject the node, and `_safe_eval` collapses both outcomes into the same
`ValueError`, so the composite `_safe_eval` is observationally unchanged. -/

/-- Lexer tokens. -/
inductive Tok where
  | tint (n : Nat)
  | tfloat (q : Rat)
  | tname (s : String)
  | tstr (s : String)
  | top (o : String)
  | lpar | rpar | comma | dot | lbrack | rbrack
  deriving DecidableEq, Repr

/-- Exponent suffix of a float literal (`e`/`E`, optional sign, digits). -/
def lexExp : List Char → Option (Int × List Char)
  | c :: rest =>
    if c = 'e' ∨ c = 'E' then
      match rest with
      | '+' :: r2 =>
        match List.span Char.isDigit r2 with
        | ([], _) => none
        | (ds, r3) => some ((digitsVal ds : Int), r3)
      | '-' :: r2 =>
        match List.span Char.isDigit r2 with
        | ([], _) => none
        | (ds, r3) => some (-(digitsVal ds : Int), r3)
      | _ =>
        match List.span Char.isDigit rest with
        | ([], _) => none
        | (ds, r3) => some ((digitsVal ds : Int), r3)
    else none
  | [] => none

/-- Assemble a numeric token from integer digits, optional fraction digits
(`none` when no decimal point was present), and an optional exponent. -/
def mkNumTok (ds : List Char) (frac : Option (List Char)) (ex : Option Int) : Tok :=
  match frac, ex with
  | none, none => .tint (digitsVal ds)
  | _, _ =>
    let fds := frac.getD []
    let mant : Rat := (digitsVal ds : Rat) + (digitsVal fds : Rat) / ((10 : Rat) ^ fds.length)
    .tfloat (mant * (10 : Rat) ^ (ex.getD 0))

/-- Scan a string literal's body up to the closing quote. -/
def lexStr (q : Char) : List Char → Option (List Char × List Char)
  | [] => none
  | c :: cs =>
    if c = q then some ([], cs)
    else
      match lexStr q cs with
      | some (body, rest) => some (c :: body, rest)
      | none => none

/-- The tokenizer; `fuel` is instantiated with the input length plus one and
strictly decreases, each step consuming at least one character. -/
def lexChars : Nat → List Char → Option (List Tok)
  | 0, _ => none
  | _, [] => some []
  | fuel + 1, c :: cs =>
    if c.isWhitespace then lexChars fuel cs
    else if c = '#' then some []
    else if c.isDigit then
      match List.span Char.isDigit (c :: cs) with
      | (ds, rest) =>
        match rest with
        | '.' :: r2 =>
          match List.span Char.isDigit r2 with
          | (fds, r3) =>
            match lexExp r3 with
            | some (ex, r4) =>
              (lexChars fuel r4).map fun ts => mkNumTok ds (some fds) (some ex) :: ts
            | none => (lexChars fuel r3).map fun ts => mkNumTok ds (some fds) none :: ts
        | _ =>
          match lexExp rest with
          | some (ex, r4) => (lexChars fuel r4).map fun ts => mkNumTok ds none (some ex) :: ts
          | none => (lexChars fuel rest).map fun ts => mkNumTok ds none none :: ts
    else if c.isAlpha ∨ c = '_' then
      match List.span (fun ch => ch.isAlphanum ∨ ch = '_') (c :: cs) with
      | (nm, rest) => (lexChars fuel rest).map fun ts => .tname (String.mk nm) :: ts
    else if c = Char.ofNat 39 ∨ c = '"' then
      match lexStr c cs with
      | some (body, rest) => (lexChars fuel rest).map fun ts => .tstr (String.mk body) :: ts
      | none => none
    else if c = '.' then
      match cs with
      | d :: _ =>
        if d.isDigit then
          match List.span Char.isDigit cs with
          | (fds, r3) =>
            match lexExp r3 with
            | some (ex, r4) =>
              (lexChars fuel r4).map fun ts => mkNumTok [] (some fds) (some ex) :: ts
            | none => (lexChars fuel r3).map fun ts => mkNumTok [] (some fds) none :: ts
        else (lexChars fuel cs).map fun ts => Tok.dot :: ts
      | [] => (lexChars fuel cs).map fun ts => Tok.dot :: ts
    else if c = '*' then
      match cs with
      | '*' :: r2 => (lexChars fuel r2).map fun ts => .top "**" :: ts
      | _ => (lexChars fuel cs).map fun ts => .top "*" :: ts
    else if c = '/' then
      match cs with
      | '/' :: r2 => (lexChars fuel r2).map fun ts => .top "//" :: ts
      | _ => (lexChars fuel cs).map fun ts => .top "/" :: ts
    else if c = '<' then
      match cs with
      | '<' :: r2 => (lexChars fuel r2).map fun ts => .top "<<" :: ts
      | _ => (lexChars fuel cs).map fun ts => .top "<" :: ts
    else if c = '>' then
      match cs with
      | '>' :: r2 => (lexChars fuel r2).map fun ts => .top ">>" :: ts
      | _ => (lexChars fuel cs).map fun ts => .top ">" :: ts
    else if c = '(' then (lexChars fuel cs).map fun ts => Tok.lpar :: ts
    else if c = ')' then (lexChars fuel cs).map fun ts => Tok.rpar :: ts
    else if c = ',' then (lexChars fuel cs).map fun ts => Tok.comma :: ts
    else if c = '[' then (lexChars fuel cs).map fun ts => Tok.lbrack :: ts
    else if c = ']' then (lexChars fuel cs).map fun ts => Tok.rbrack :: ts
    else if c = '+' ∨ c = '-' ∨ c = '%' ∨ c = '^' ∨ c = '&' ∨ c = '|' ∨ c = '@'
        ∨ c = '~' ∨ c = '=' ∨ c = '!' then
      (lexChars fuel cs).map fun ts => .top (String.mk [c]) :: ts
    else none

/-- Binary operator tokens by precedence level, weakest first: `|`, then
`^` (bitwise xor -- *not* power), `&`, shifts, additive, multiplicative. -/
def binOfTok : Nat → Tok → Option PBinOp
  | 0, .top "|" => some .bitOr
  | 1, .top "^" => some .bitXor
  | 2, .top "&" => some .bitAnd
  | 3, .top "<<" => some .lshift
  | 3, .top ">>" => some .rshift
  | 4, .top "+" => some .add
  | 4, .top "-" => some .sub
  | 5, .top "*" => some .mult
  | 5, .top "/" => some .div
  | 5, .top "//" => some .floorDiv
  | 5, .top "%" => some .mod
  | 5, .top "@" => some .matmul
  | _, _ => none

mutual

/-- Left-associative binary layer at precedence `lvl`; levels ≥ 6 fall to
the unary layer. -/
def parseLev : Nat → Nat → List Tok → Option (PExpr × List Tok)
  | 0, _, _ => none
  | fuel + 1, lvl, toks =>
    if 6 ≤ lvl then parseUnary fuel toks
    else
      match parseLev fuel (lvl + 1) toks with
      | some (l, rest) => parseLevLoop fuel lvl l rest
      | none => none

def parseLevLoop : Nat → Nat → PExpr → List Tok → Option (PExpr × List Tok)
  | 0, _, _, _ => none
  | fuel + 1, lvl, acc, toks =>
    match toks with
    | t :: rest =>
      match binOfTok lvl t with
      | some o =>
        match parseLev fuel (lvl + 1) rest with
        | some (r, rest2) => parseLevLoop fuel lvl (.binop o acc r) rest2
        | none => none
      | none => some (acc, toks)
    | [] => some (acc, [])

/-- Unary layer: `-`/`+`/`~` bind looser than `**` on its left. -/
def parseUnary : Nat → List Tok → Option (PExpr × List Tok)
  | 0, _ => none
  | fuel + 1, toks =>
    match toks with
    | .top "-" :: rest => (parseUnary fuel rest).map fun p => (.unop .usub p.1, p.2)
    | .top "+" :: rest => (parseUnary fuel rest).map fun p => (.unop .uadd p.1, p.2)
    | .top "~" :: rest => (parseUnary fuel rest).map fun p => (.unop .invert p.1, p.2)
    | _ => parsePow fuel toks

/-- Power layer: `**` is right-associative and its right operand is a unary
expression (`2 ** -1` parses). -/
def parsePow : Nat → List Tok → Option (PExpr × List Tok)
  | 0, _ => none
  | fuel + 1, toks =>
    match parseTrail fuel toks with
    | some (b, rest) =>
      match rest with
      | .top "**" :: rest2 => (parseUnary fuel rest2).map fun p => (.binop .pow b p.1, p.2)
      | _ => some (b, rest)
    | none => none

/-- An atom followed by call / attribute / subscript trailers. -/
def parseTrail : Nat → List Tok → Option (PExpr × List Tok)
  | 0, _ => none
  | fuel + 1, toks =>
    match parseAtom fuel toks with
    | some (a, rest) => parseTrailLoop fuel a rest
    | none => none

def parseTrailLoop : Nat → PExpr → List Tok → Option (PExpr × List Tok)
  | 0, _, _ => none
  | fuel + 1, acc, toks =>
    match toks with
    | .lpar :: .rpar :: rest => parseTrailLoop fuel (.call acc []) rest
    | .lpar :: rest =>
      match parseArgs fuel rest with
      | some (args, .rpar :: rest2) => parseTrailLoop fuel (.call acc args) rest2
      | _ => none
    | .dot :: .tname id :: rest => parseTrailLoop fuel (.attr acc id) rest
    | .lbrack :: rest =>
      match parseLev fuel 0 rest with
      | some (ix, .rbrack :: rest2) => parseTrailLoop fuel (.subscript acc ix) rest2
      | _ => none
    | _ => some (acc, toks)

/-- Comma-separated call arguments. -/
def parseArgs : Nat → List Tok → Option (List PExpr × List Tok)
  | 0, _ => none
  | fuel + 1, toks =>
    match parseLev fuel 0 toks with
    | some (e, .comma :: rest) =>
      match parseArgs fuel rest with
      | some (es, rest2) => some (e :: es, rest2)
      | none => none
    | some (e, rest) => some ([e], rest)
    | none => none

/-- Atoms: literals (including the keyword constants `True`/`False`/`None`,
which `ast.parse` turns into `Constant` nodes), names, parenthesized
expressions. -/
def parseAtom : Nat → List Tok → Option (PExpr × List Tok)
  | 0, _ => none
  | fuel + 1, toks =>
    match toks with
    | .tint n :: rest => some (.const (.pint n), rest)
    | .tfloat q :: rest => some (.const (.pfloat q), rest)
    | .tstr s :: rest => some (.const (.pstr s), rest)
    | .tname "True" :: rest => some (.const (.pbool true), rest)
    | .tname "False" :: rest => some (.const (.pbool false), rest)
    | .tname "None" :: rest => some (.const .pnone, rest)
    | .tname id :: rest => some (.name id, rest)
    | .lpar :: rest =>
      match parseLev fuel 0 rest with
      | some (e, .rpar :: rest2) => some (e, rest2)
      | _ => none
    | _ => none

end

/-- `ast.parse(expr, mode="eval").body`: tokenize, parse a full expression,
and require every token to be consumed. -/
def parseExprStr (s : String) : Option PExpr :=
  match lexChars (s.data.length + 1) s.data with
  | some toks =>
    match parseLev (12 * (toks.length + 1) + 12) 0 toks with
    | some (e, []) => some e
    | _ => none
  | none => none

/-- The single failure mode of `_safe_eval`: it catches every exception and
re-raises `ValueError("Invalid expression")`. -/
inductive EvalErr where
  | invalidExpression
  deriving DecidableEq, Repr

/-- `_safe_eval` (delta.py lines 141-146): parse, evaluate, and collapse
every failure -- syntax errors, rejected nodes, and runtime arithmetic
faults alike -- into the one `ValueError`. -/
def _safe_eval (h : MathHost) (expr : String) : Except EvalErr PyVal :=
  match parseExprStr expr with
  | some node =>
    match evalNode h node with
    | some v => .ok v
    | none => .error .invalidExpression
  | none => .error .invalidExpression

/-! ## Specification-side predicates for the evaluator -/

/-- Membership of an operator tag in `ALLOWED_OPERATORS`. -/
def allowedBin : PBinOp → Bool
  | .add | .sub | .mult | .div | .pow | .mod | .floorDiv => true
  | _ => false

mutual

/-- The restricted grammar of the specification: a literal (int, float, or
bool -- Python bools being ints), an allowed binary operator, unary
negation, a call whose target is an allow-listed bare name, or an
allow-listed name.  Anything else -- other literals, other operators,
attribute access, subscripting, non-name call targets, names outside
`SAFE_NAMES` -- is outside the grammar. -/
def safeShape : PExpr → Bool
  | .const (.pint _) => true
  | .const (.pfloat _) => true
  | .const (.pbool _) => true
  | .const (.pstr _) => false
  | .const .pnone => false
  | .binop o l r => allowedBin o && safeShape l && safeShape r
  | .unop o e => (o == .usub) && safeShape e
  | .call (.name id) args => safeNameKeys.contains id && safeShapeL args
  | .call _ _ => false
  | .name id => safeNameKeys.contains id
  | .attr _ _ => false
  | .subscript _ _ => false

def safeShapeL : List PExpr → Bool
  | [] => true
  | a :: as => safeShape a && safeShapeL as

end

/-- Mathematical integer semantics of the allowed operators, written from
the specification's wording: `//` is floor division, `%` is the matching
modulo, `**` with a non-negative exponent is integer power.  This is the
"mathematically correct value" the spec promises, defined independently of
the evaluator. -/
def intValBin : PBinOp → Int → Int → Option Int
  | .add, a, b => some (a + b)
  | .sub, a, b => some (a - b)
  | .mult, a, b => some (a * b)
  | .floorDiv, a, b => if b = 0 then none else some (Int.fdiv a b)
  | .mod, a, b => if b = 0 then none else some (Int.fmod a b)
  | .pow, a, b => if 0 ≤ b then some (a ^ b.toNat) else none
  | _, _, _ => none

/-- Spec-side denotation: the exact integer value of an expression built
from integer literals, the allowed operators, unary negation, and
`factorial`, with defined side conditions (no zero divisor, no negative
exponent or factorial argument).  Expressions whose mathematically correct
value is irrational or float-typed are outside this denotation. -/
def intVal : PExpr → Option Int
  | .const (.pint n) => some n
  | .const (.pfloat _) => none
  | .const (.pbool _) => none
  | .const (.pstr _) => none
  | .const .pnone => none
  | .binop o l r =>
    match intVal l with
    | some a =>
      match intVal r with
      | some b => intValBin o a b
      | none => none
    | none => none
  | .unop .usub e => (intVal e).map fun x => -x
  | .unop .uadd _ => none
  | .unop .invert _ => none
  | .call (.name f) [a] =>
    if f = "factorial" then
      match intVal a with
      | some x => if 0 ≤ x then some ((Nat.factorial x.toNat : Nat) : Int) else none
      | none => none
    else none
  | .call _ _ => none
  | .name _ => none
  | .attr _ _ => none
  | .subscript _ _ => none

/-- Largest `k ≤ bound` with `k * k ≤ n` (a structurally recursive integer
square root used only by the sample host). -/
def sqrtBelow (n : Nat) : Nat → Nat
  | 0 => 0
  | k + 1 => if (k + 1) * (k + 1) ≤ n then k + 1 else sqrtBelow n k

/-- A concrete host for witnesses: `sqrt` is exact on integer perfect
squares, the other entries are arbitrary rationals. -/
def sampleHost : MathHost :=
  { sqrt := fun q => ((sqrtBelow q.num.toNat q.num.toNat : Int) : Rat)
    sin := fun _ => 0
    cos := fun _ => 0
    tan := fun _ => 0
    log := fun _ => 0
    log10 := fun _ => 0
    logBase := fun _ _ => 0
    powf := fun _ _ => 0
    pi := 314159 / 100000
    e := 271828 / 100000 }

/-! ## Helper lemmas about the evaluator -/

/-- A successful `ALLOWED_OPERATORS` application certifies the operator tag
as allow-listed. -/
theorem pyBinOp_allowed (h : MathHost) (o : PBinOp) (a b : PyVal) (v : PyVal)
    (hv : pyBinOp h o a b = some v) : allowedBin o = true := by
  cases o <;> first
    | rfl
    | (cases a <;> cases b <;>
        simp [pyBinOp, toIntLike, toQ, intBin, floatBin] at hv)

mutual

/-- Any expression the evaluator accepts lies inside the restricted
grammar. -/
theorem evalNode_safeShape (h : MathHost) :
    ∀ (e : PExpr) (v : PyVal), evalNode h e = some v → safeShape e = true
  | .const c => by cases c <;> simp [evalNode, safeShape]
  | .binop o l r => by
    intro v hv
    simp only [evalNode] at hv
    cases hl : evalNode h l with
    | none => rw [hl] at hv; exact absurd hv (by simp)
    | some lv =>
      rw [hl] at hv
      cases hr : evalNode h r with
      | none => rw [hr] at hv; exact absurd hv (by simp)
      | some rv =>
        rw [hr] at hv
        have hsl := evalNode_safeShape h l lv hl
        have hsr := evalNode_safeShape h r rv hr
        have ha := pyBinOp_allowed h o lv rv v hv
        simp only [safeShape]
        rw [ha, hsl, hsr]
        rfl
  | .unop o e => by
    intro v hv
    cases o with
    | usub =>
      simp only [evalNode] at hv
      cases he : evalNode h e with
      | none => rw [he] at hv; exact absurd hv (by simp)
      | some w =>
        rw [he] at hv
        have hs := evalNode_safeShape h e w he
        simp only [safeShape]
        rw [hs]
        rfl
    | uadd => simp [evalNode] at hv
    | invert => simp [evalNode] at hv
  | .call f args => by
    intro v hv
    cases f with
    | name id =>
      simp only [evalNode] at hv
      by_cases hc : safeNameKeys.contains id = true
      · rw [if_pos hc] at hv
        cases hl : evalList h args with
        | none => rw [hl] at hv; exact absurd hv (by simp)
        | some vs =>
          have hs := evalList_safeShapeL h args vs hl
          simp only [safeShape]
          rw [hc, hs]
          rfl
      · rw [if_neg hc] at hv; exact absurd hv (by simp)
    | const c => simp [evalNode] at hv
    | binop o l r => simp [evalNode] at hv
    | unop o e => simp [evalNode] at hv
    | call g bs => simp [evalNode] at hv
    | attr e id => simp [evalNode] at hv
    | subscript e ix => simp [evalNode] at hv
  | .name id => by
    intro v hv
    simp only [evalNode, lookupName] at hv
    by_cases h1 : id = "pi"
    · subst h1; decide
    · by_cases h2 : id = "e"
      · subst h2; decide
      · rw [if_neg h1, if_neg h2] at hv
        by_cases h3 : safeNameKeys.contains id = true
        · simp only [safeShape]; exact h3
        · rw [if_neg h3] at hv; exact absurd hv (by simp)
  | .attr e id => by intro v hv; simp [evalNode] at hv
  | .subscript e ix => by intro v hv; simp [evalNode] at hv

/-- List version of `evalNode_safeShape`. -/
theorem evalList_safeShapeL (h : MathHost) :
    ∀ (l : List PExpr) (vs : List PyVal), evalList h l = some vs → safeShapeL l = true
  | [] => by intro vs hv; rfl
  | a :: as => by
    intro vs hv
    simp only [evalList] at hv
    cases ha : evalNode h a with
    | none => rw [ha] at hv; exact absurd hv (by simp)
    | some v =>
      rw [ha] at hv
      cases has : evalList h as with
      | none => rw [has] at hv; exact absurd hv (by simp)
      | some ws =>
        have h1 := evalNode_safeShape h a v ha
        have h2 := evalList_safeShapeL h as ws has
        simp only [safeShapeL]
        rw [h1, h2]
        rfl

end

/-- Each defined `intValBin` result is also computed by the evaluator's
integer branch (Python's `fdiv`/`fmod`/`pow` realize the spec's floor
division, modulo, and power). -/
theorem intValBin_intBin (o : PBinOp) (a b n : Int) (hv : intValBin o a b = some n) :
    intBin o a b = some (.vint n) := by
  cases o with
  | add => injection hv with h'; subst h'; rfl
  | sub => injection hv with h'; subst h'; rfl
  | mult => injection hv with h'; subst h'; rfl
  | div => exact Option.noConfusion hv
  | floorDiv =>
    simp only [intValBin] at hv
    split_ifs at hv with hb
    injection hv with h'; subst h'
    simp only [intBin]
    rw [if_neg hb]
  | mod =>
    simp only [intValBin] at hv
    split_ifs at hv with hb
    injection hv with h'; subst h'
    simp only [intBin]
    rw [if_neg hb]
  | pow =>
    simp only [intValBin] at hv
    split_ifs at hv with hb
    injection hv with h'; subst h'
    simp only [intBin, intPow]
    rw [if_pos hb]
  | bitXor => exact Option.noConfusion hv
  | bitAnd => exact Option.noConfusion hv
  | bitOr => exact Option.noConfusion hv
  | lshift => exact Option.noConfusion hv
  | rshift => exact Option.noConfusion hv
  | matmul => exact Option.noConfusion hv

/-- Evaluating a one-element argument list. -/
theorem evalList_single (h : MathHost) (a : PExpr) (v : PyVal)
    (ha : evalNode h a = some v) : evalList h [a] = some [v] := by
  simp [evalList, ha]

set_option maxHeartbeats 2000000 in
/-- The evaluator refines the spec-side exact integer denotation: whenever
`intVal` assigns an expression the mathematically correct integer `n`, the
evaluator returns exactly `int n`, for every host math library. -/
theorem intVal_evalNode (h : MathHost) :
    ∀ (e : PExpr) (n : Int), intVal e = some n → evalNode h e = some (.vint n)
  | .const c => by
    intro n hv
    cases c <;> simp [intVal] at hv
    subst hv; rfl
  | .binop o l r => by
    intro n hv
    simp only [intVal] at hv
    cases hl : intVal l with
    | none => rw [hl] at hv; exact absurd hv (by simp)
    | some a =>
      rw [hl] at hv
      cases hr : intVal r with
      | none => rw [hr] at hv; exact absurd hv (by simp)
      | some b =>
        rw [hr] at hv
        have el := intVal_evalNode h l a hl
        have er := intVal_evalNode h r b hr
        simp only [evalNode, el, er]
        exact intValBin_intBin o a b n hv
  | .unop o e => by
    intro n hv
    cases o with
    | usub =>
      cases he : intVal e with
      | none => simp [intVal, he] at hv
      | some x =>
        simp [intVal, he] at hv
        subst hv
        have ee := intVal_evalNode h e x he
        simp only [evalNode, ee, pyNeg]
    | uadd => simp [intVal] at hv
    | invert => simp [intVal] at hv
  | .call f args => by
    intro n hv
    cases f with
    | name id =>
      cases args with
      | nil => simp [intVal] at hv
      | cons a rest =>
        cases rest with
        | nil =>
          by_cases hf : id = "factorial"
          · subst hf
            cases hia : intVal a with
            | none => simp [intVal, hia] at hv
            | some x =>
              simp only [intVal, hia, if_pos] at hv
              split_ifs at hv with hx
              injection hv with hv'
              subst hv'
              have ee := intVal_evalNode h a x hia
              have hl := evalList_single h a (.vint x) ee
              simp only [evalNode, hl]
              rw [if_pos (show safeNameKeys.contains "factorial" = true by decide)]
              simp only [applyFn]
              rw [if_pos hx]
          · simp only [intVal] at hv
            rw [if_neg hf] at hv
            exact Option.noConfusion hv
        | cons b rest2 => simp [intVal] at hv
    | const c => simp [intVal] at hv
    | binop o l r => simp [intVal] at hv
    | unop o e => simp [intVal] at hv
    | call g bs => simp [intVal] at hv
    | attr e id => simp [intVal] at hv
    | subscript e ix => simp [intVal] at hv
  | .name id => by intro n hv; simp [intVal] at hv
  | .attr e id => by intro n hv; simp [intVal] at hv
  | .subscript e ix => by intro n hv; simp [intVal] at hv

/-! ## Memory store (`_load_memory` / `_save_memory`)

The JSON object in `delta_memory.json` is embedded as an insertion-ordered
association list with string keys and values (Python dicts preserve
insertion order; the store only ever writes such objects, and
`json.dump`/`json.load` round-trip them). -/

/-- A `MemoryRecord`: the parsed memory dictionary. -/
abbrev Mem := List (String × String)

/-- `mem.get(key)`. -/
def memLookup : Mem → String → Option String
  | [], _ => none
  | (k, v) :: rest, key => if k = key then some v else memLookup rest key

/-- `mem[key] = value`: replace in place or append. -/
def memInsert : Mem → String → String → Mem
  | [], key, v => [(key, v)]
  | (k, w) :: rest, key, v =>
    if k = key then (key, v) :: rest else (k, w) :: memInsert rest key v

/-- The state of the storage file: missing (open raises), unreadable (read
raises), malformed (`json.load` raises), or holding a parsed record. -/
inductive FileState where
  | missing
  | unreadable
  | malformed
  | stored (m : Mem)
  deriving Repr

/-- `_load_memory` (delta.py lines 60-65): every exception path -- missing,
unreadable, or malformed storage -- returns the empty record `{}`; a
readable well-formed file returns its parsed content.  The function never
propagates a failure to its caller. -/
def _load_memory : FileState → Mem
  | .stored m => m
  | _ => []

/-- `_save_memory` (delta.py lines 67-72), successful path: rewrite the
whole file with the current record.  (The failure path only logs; it leaves
the file in an unspecified state and the caller proceeds regardless.) -/
def _save_memory (m : Mem) (_f : FileState) : FileState := .stored m

/-! ## Side effects of the router, reified -/

/-- Observable actions a routed command triggers besides its textual reply:
network requests, the synchronous memory flush, spawned background units,
browser/system launches, and an `evaluated` marker recording that the
Calculate handler ran `_safe_eval` on the given expression text. -/
inductive Effect where
  | netWeather (city : String)
  | netNews
  | netDict (word : String)
  | netWiki (topic : String)
  | saveMem (m : Mem)
  | spawnAlarm (target : String)
  | spawnReminder (minutes : Nat) (action : String)
  | webSearch (q : String)
  | openUrl (u : String)
  | sysNotepad
  | sysChrome
  | playYt (q : String)
  | evaluated (expr : String)
  deriving DecidableEq, Repr

/-- Applying the memory flushes of an effect list to the storage file. -/
def applyEffects (f : FileState) (effs : List Effect) : FileState :=
  effs.foldl
    (fun acc e =>
      match e with
      | .saveMem m => _save_memory m acc
      | _ => acc)
    f

/-! ## External collaborators and configuration -/

/-- Response of the WeatherAPI `GET`: a `current` payload, an `error`
payload (with or without a `message`), some other JSON, or a raised
exception/timeout. -/
inductive WeatherResp where
  | current (cond temp hum wind : String)
  | errorMsg (m : Option String)
  | other
  | netFail
  deriving Repr

/-- Response of the news `GET`: status ok with article titles, a non-ok
status, or a raised exception/timeout. -/
inductive NewsResp where
  | okNews (titles : List String)
  | badStatus
  | netFail
  deriving Repr

/-- Response of the dictionary `GET`. -/
inductive DictResp where
  | found (d : String)
  | notFound
  | netFail
  deriving Repr

/-- The process environment: the four configuration environment variables
(`None` = unset), the host math library, and the external collaborators
(clock format results, joke source, network oracles, whether Chrome's path
exists). -/
structure Env where
  weatherKeyEnv : Option String
  newsKeyEnv : Option String
  emailSenderEnv : Option String
  emailPasswordEnv : Option String
  host : MathHost
  timeStr : String
  dateStr : String
  joke : String
  chromeOk : Bool
  wikiNet : String → Option String
  weatherNet : String → WeatherResp
  newsNet : NewsResp
  dictNet : String → DictResp

/-- `os.environ.get("DELTA_WEATHER_API_KEY", "a201655e97c349c993883936250411")`:
note the hard-coded non-empty default -- an *absent* environment variable
still yields a usable key. -/
def WEATHER_API_KEY (env : Env) : String :=
  env.weatherKeyEnv.getD "a201655e97c349c993883936250411"

/-- `os.environ.get("DELTA_NEWS_API_KEY", "0530443142104c65965ccb122f9395a4")`. -/
def NEWS_API_KEY (env : Env) : String :=
  env.newsKeyEnv.getD "0530443142104c65965ccb122f9395a4"

/-- `os.environ.get("DELTA_EMAIL_SENDER", "")` -- default empty. -/
def EMAIL_SENDER (env : Env) : String := env.emailSenderEnv.getD ""

/-- `os.environ.get("DELTA_EMAIL_PASSWORD", "")`. -/
def EMAIL_PASSWORD (env : Env) : String := env.emailPasswordEnv.getD ""

def newsWarnMsg : String :=
  "DELTA_NEWS_API_KEY not set — news feature disabled until configured."

def weatherWarnMsg : String :=
  "DELTA_WEATHER_API_KEY not set — weather feature disabled until configured."

def emailWarnMsg : String :=
  "Email sender/password not set — email feature disabled until configured."

/-- The `logging.warning` calls at import time (delta.py lines 35-40): each
fires once, exactly when the corresponding key value is falsy (the empty
string). -/
def startupWarnings (env : Env) : List String :=
  (if NEWS_API_KEY env = "" then [newsWarnMsg] else []) ++
  (if WEATHER_API_KEY env = "" then [weatherWarnMsg] else []) ++
  (if EMAIL_SENDER env = "" ∨ EMAIL_PASSWORD env = "" then [emailWarnMsg] else [])

/-! ## Handlers -/

/-- Rendering of a value into `f"The result is {result}"`.  The decimal
rendering of the idealized floats is approximated (no claim depends on this
text); ints, bools, and function objects follow Python's `str`. -/
def floatRepr (q : Rat) : String :=
  if q.den = 1 then toString q.num ++ ".0"
  else toString q.num ++ "/" ++ toString q.den

def pyRepr : PyVal → String
  | .vint n => toString n
  | .vfloat q => floatRepr q
  | .vbool b => if b then "True" else "False"
  | .vfun f => "<built-in function " ++ f ++ ">"

/-- `get_weather` (delta.py lines 238-256): an empty key short-circuits to
the configuration message with *no* network request; otherwise one `GET`
is issued and the reply is built from the response payload. -/
def get_weather (env : Env) (city : String) : String × List Effect :=
  if WEATHER_API_KEY env = "" then
    ("Weather is not configured. Set DELTA_WEATHER_API_KEY to enable weather.", [])
  else
    match env.weatherNet city with
    | .current cond temp hum wind =>
      ("The weather in " ++ city ++ " is " ++ cond ++ ", temperature " ++ temp ++
        "°C, humidity " ++ hum ++ "%, wind " ++ wind ++ " kph.", [.netWeather city])
    | .errorMsg (some m) => (m, [.netWeather city])
    | .errorMsg none => ("Unknown location.", [.netWeather city])
    | .other => ("Couldn\x27t fetch weather.", [.netWeather city])
    | .netFail => ("Weather lookup failed.", [.netWeather city])

/-- Numbered headline lines `f"{i}. {title}"`. -/
def numberLines (ts : List String) : List String :=
  ((List.range ts.length).zip ts).map fun p => toString (p.1 + 1) ++ ". " ++ p.2

/-- `get_news` (delta.py lines 259-281). -/
def get_news (env : Env) : String × List Effect :=
  if NEWS_API_KEY env = "" then
    ("News is not configured. Set DELTA_NEWS_API_KEY to enable headlines.", [])
  else
    match env.newsNet with
    | .okNews ts =>
      let items := ts.take 5
      if items.isEmpty then ("No news found.", [.netNews])
      else (String.intercalate "\n" (numberLines items), [.netNews])
    | .badStatus => ("Could not fetch news.", [.netNews])
    | .netFail => ("News lookup failed.", [.netNews])

/-- `get_definition` (delta.py lines 336-347). -/
def get_definition (env : Env) (word : String) : String × List Effect :=
  match env.dictNet word with
  | .found d => (d, [.netDict word])
  | .notFound => ("I couldn\x27t find a definition.", [.netDict word])
  | .netFail => ("Definition lookup failed.", [.netDict word])

/-- `search_wikipedia` (delta.py lines 183-194); the returned reply is the
summary (or the failure message), the interim "Searching Wikipedia..."
speech is not the return value. -/
def search_wikipedia (env : Env) (cmd : String) : String × List Effect :=
  let topic := sTrim (sReplace cmd "wikipedia" "")
  if topic = "" then ("What should I search on Wikipedia?", [])
  else
    match env.wikiNet topic with
    | some info => (info, [.netWiki topic])
    | none => ("Couldn\x27t find information on Wikipedia.", [.netWiki topic])

/-- `search_google` (delta.py lines 196-202). -/
def search_google (cmd : String) : String × List Effect :=
  let query := sTrim (sReplace (sReplace cmd "search" "") "google" "")
  if query = "" then ("What should I search for?", [])
  else ("Searching Google for " ++ query, [.webSearch query])

/-- `open_app_or_website` (delta.py lines 204-232); named targets take
precedence, then the generic `open <target>` rule with its `http://`
prefixing. -/
def open_app_or_website (env : Env) (cmd : String) : String × List Effect :=
  if sContains cmd "youtube" then ("Opening YouTube.", [.openUrl "https://www.youtube.com"])
  else if sContains cmd "google" then ("Opening Google.", [.openUrl "https://www.google.com"])
  else if sContains cmd "notepad" then ("Opening Notepad.", [.sysNotepad])
  else if sContains cmd "chrome" then
    if env.chromeOk then ("Opening Chrome.", [.sysChrome])
    else ("Unable to open Chrome. Please check the path.", [])
  else if sStarts cmd "open " then
    let target := sTrim (sReplace cmd "open " "")
    let target2 :=
      if !(target == "") && sContains target "." && !(sStarts target "http")
      then "http://" ++ target else target
    if target2 = "" then ("I can\x27t open that yet.", [])
    else ("Opening " ++ target2, [.openUrl target2])
  else ("I can\x27t open that yet.", [])

/-! ## The weather-city, alarm-time, and reminder regular expressions -/

/-- The character class `[a-zA-Z\s]` of the city pattern. -/
def cityChar (c : Char) : Bool := c.isAlpha || c.isWhitespace

/-- Matching the part of `r"weather(?: in| at)? ([a-zA-Z\s]+)"` after the
literal `weather`, with the regex engine's backtracking order: prefer the
group alternative `" in"`, then `" at"`, then the empty group, each
followed by a literal space and a non-empty greedy run of `[a-zA-Z\s]`. -/
def matchCityTail (r : List Char) : Option (List Char) :=
  if pfx " in ".data r ∧ ((List.drop 4 r).takeWhile cityChar) ≠ [] then
    some ((List.drop 4 r).takeWhile cityChar)
  else if pfx " at ".data r ∧ ((List.drop 4 r).takeWhile cityChar) ≠ [] then
    some ((List.drop 4 r).takeWhile cityChar)
  else
    match r with
    | ' ' :: rest =>
      if (rest.takeWhile cityChar) = [] then none else some (rest.takeWhile cityChar)
    | _ => none

/-- `re.search`: try each start position left to right for the literal
`weather` followed by a matching tail. -/
def extractCityFrom : List Char → Option (List Char)
  | [] => none
  | c :: cs =>
    if pfx "weather".data (c :: cs) then
      match matchCityTail (List.drop 7 (c :: cs)) with
      | some cap => some cap
      | none => extractCityFrom cs
    else extractCityFrom cs

/-- The weather branch's city extraction, `m.group(1).strip()`. -/
def extractCity (cmd : String) : Option String :=
  (extractCityFrom cmd.data).map fun l => String.mk (trimChars l)

/-- Two-digit-hour attempt of `r"(\d{1,2}:\d{2})"` at one position. -/
def timeTwo : List Char → Option (List Char × List Char)
  | a :: b :: c :: d :: e :: _ =>
    if a.isDigit && b.isDigit && c == ':' && d.isDigit && e.isDigit
    then some ([a, b], [d, e]) else none
  | _ => none

/-- One-digit-hour attempt (tried after the greedy two-digit attempt). -/
def timeOne : List Char → Option (List Char × List Char)
  | a :: b :: c :: d :: _ =>
    if a.isDigit && b == ':' && c.isDigit && d.isDigit
    then some ([a], [c, d]) else none
  | _ => none

/-- `re.search(r"(\d{1,2}:\d{2})", command)`: leftmost match, greedy hour. -/
def findTimeFrom : List Char → Option (List Char × List Char)
  | [] => none
  | c :: cs =>
    match timeTwo (c :: cs) with
    | some r => some r
    | none =>
      match timeOne (c :: cs) with
      | some r => some r
      | none => findTimeFrom cs

/-- `set_alarm` (delta.py lines 313-320): extract `H:MM`/`HH:MM`, zero-pad
each field through `int(...)`, spawn the polling thread, confirm.  Without
a match, ask for the format. -/
def set_alarm (cmd : String) : String × List Effect :=
  match findTimeFrom cmd.data with
  | some (hs, ms) =>
    let t := pad2 (digitsVal hs) ++ ":" ++ pad2 (digitsVal ms)
    ("Alarm set for " ++ t, [.spawnAlarm t])
  | none => ("Please tell me the alarm time in HH:MM format.", [])

/-- The tail `" in (\d+)\s*minutes?"` of the reminder pattern, anchored at
the current position; returns the captured minutes. -/
def remTail (r : List Char) : Option Nat :=
  if pfx " in ".data r then
    let ds := (List.drop 4 r).takeWhile Char.isDigit
    if ds = [] then none
    else
      let r3 := ((List.drop 4 r).dropWhile Char.isDigit).dropWhile Char.isWhitespace
      if pfx "minute".data r3 then some (digitsVal ds) else none
  else none

/-- The lazy group `(.+?)`: grow the captured action one character at a
time until the tail matches. -/
def remSearch (action : List Char) : List Char → Option (List Char × Nat)
  | [] => none
  | c :: cs =>
    match remTail cs with
    | some m => some (action ++ [c], m)
    | none => remSearch (action ++ [c]) cs

/-- `re.search(r"remind me to (.+?) in (\d+)\s*minutes?", command)`. -/
def findReminderFrom : List Char → Option (List Char × Nat)
  | [] => none
  | c :: cs =>
    if pfx "remind me to ".data (c :: cs) then
      match remSearch [] (List.drop 13 (c :: cs)) with
      | some r => some r
      | none => findReminderFrom cs
    else findReminderFrom cs

/-- `set_reminder` (delta.py lines 322-333). -/
def set_reminder (cmd : String) : String × List Effect :=
  match findReminderFrom cmd.data with
  | some (act, mins) =>
    ("Reminder set for " ++ toString mins ++ " minutes from now.",
      [.spawnReminder mins (String.mk (trimChars act))])
  | none => ("Please say reminders like: remind me to buy milk in 10 minutes.", [])

/-- `any(ch in cmd for ch in "+-*/%^")` -- the arithmetic-symbol trigger of
the Calculate rule (note it includes `^`). -/
def mathSymbolIn (cmd : String) : Bool :=
  "+-*/%^".data.any fun ch => cmd.data.contains ch

/-! ## The command router -/

/-- The body of `process_command` after normalization (delta.py lines
358-452): the ordered predicate chain over `cmd = command.lower().strip()`.
Returns the reply (`process_command`'s return value), the updated memory
record, and the reified side effects. -/
def routeCmd (env : Env) (mem : Mem) (cmd : String) : String × Mem × List Effect :=
  if sStarts cmd "call me " || sStarts cmd "my name is " then
    let nm := sCapitalize (sTrim (sReplace (sReplace cmd "call me " "") "my name is " ""))
    let mem2 := memInsert mem "name" nm
    ("Okay, I\x27ll call you " ++ nm ++ ".", mem2, [.saveMem mem2])
  else if sContains cmd "time" && !(sStarts cmd "time in") then
    ("The current time is " ++ env.timeStr, mem, [])
  else if sContains cmd "date" then
    ("Today\x27s date is " ++ env.dateStr, mem, [])
  else if sContains cmd "wikipedia" then
    let p := search_wikipedia env cmd
    (p.1, mem, p.2)
  else if sStarts cmd "search " || sContains cmd "google" then
    let p := search_google cmd
    (p.1, mem, p.2)
  else if sContains cmd "open" then
    let p := open_app_or_website env cmd
    (p.1, mem, p.2)
  else if sContains cmd "weather" then
    match extractCity cmd with
    | some city =>
      let p := get_weather env city
      (p.1, mem, p.2)
    | none => ("Which city would you like the weather for?", mem, [])
  else if sContains cmd "news" then
    let p := get_news env
    (p.1, mem, p.2)
  else if sContains cmd "email" then
    ("To send an email, please provide recipient, subject and message in the UI.", mem, [])
  else if sContains cmd "joke" then
    (env.joke, mem, [])
  else if sContains cmd "your name" || sContains cmd "who are you" then
    ("I am Delta, your personal AI assistant.", mem, [])
  else if sContains cmd "my name" then
    ("Your name is " ++ (memLookup mem "name").getD "not set yet" ++ ".", mem, [])
  else if sContains cmd "exit" || sContains cmd "stop" || sContains cmd "quit"
      || sContains cmd "goodbye" then
    ("Goodbye. Shutting down.", mem, [])
  else if sContains cmd "calculate" || mathSymbolIn cmd || sStarts cmd "what is" then
    let expr := sTrim (sReplace (sReplace cmd "calculate" "") "what is" "")
    match _safe_eval env.host expr with
    | .ok v => ("The result is " ++ pyRepr v, mem, [.evaluated expr])
    | .error _ => ("I couldn\x27t calculate that.", mem, [.evaluated expr])
  else if sContains cmd "set alarm" || sContains cmd "alarm" then
    let p := set_alarm cmd
    (p.1, mem, p.2)
  else if sContains cmd "remind me" then
    let p := set_reminder cmd
    (p.1, mem, p.2)
  else if sStarts cmd "define " || sContains cmd "definition of" then
    let word := sTrim (sReplace (sReplace cmd "define " "") "definition of" "")
    if word = "" then ("Which word should I define?", mem, [])
    else
      let p := get_definition env word
      (p.1, mem, p.2)
  else if sContains cmd "play" && sContains cmd "youtube" then
    let q := sTrim (sReplace (sReplace cmd "play" "") "on youtube" "")
    if q = "" then ("What should I play?", mem, [])
    else ("Playing " ++ q ++ " on YouTube.", mem, [.playYt q])
  else
    ("I didn\x27t understand that. Say \x27yes\x27 to search the web.", mem, [])

/-- `process_command` (delta.py lines 350-452).  `if not command:` is
Python truthiness: only the *empty* string short-circuits to the
"didn't hear anything" response; any other input (including whitespace) is
lowered, stripped, and run through the predicate chain. -/
def process_command (env : Env) (mem : Mem) (command : String) : String × Mem × List Effect :=
  if command = "" then
    ("I didn\x27t hear anything. Please say that again or type your command.", mem, [])
  else routeCmd env mem (sLowerTrim command)

/-! ## The alarm polling loop -/

/-- `_alarm_thread`'s polling loop (delta.py lines 304-311), run for `fuel`
iterations against an abstract clock stream: `clock i` is the
`datetime.now().strftime("%H:%M")` reading of the i-th poll.  Returns the
notifications spoken by the loop, whether the loop terminated (`break`
reached), and the total seconds slept (`time.sleep(10)` after every missed
check). -/
def alarmRunAux (clock : Nat → String) (target : String) : Nat → Nat → List String × Bool × Nat
  | _, 0 => ([], false, 0)
  | i, fuel + 1 =>
    if clock i = target then (["Alarm ringing"], true, 0)
    else
      let r := alarmRunAux clock target (i + 1) fuel
      (r.1, r.2.1, 10 + r.2.2)

/-- The loop started at the first poll. -/
def alarmRun (clock : Nat → String) (target : String) (fuel : Nat) : List String × Bool × Nat :=
  alarmRunAux clock target 0 fuel

/-- A concrete environment for witnesses: no environment variables set
(so the hard-coded default API keys apply), simple collaborators. -/
def sampleEnv : Env :=
  { weatherKeyEnv := none
    newsKeyEnv := none
    emailSenderEnv := none
    emailPasswordEnv := none
    host := sampleHost
    timeStr := "10:00 AM"
    dateStr := "January 01, 2026"
    joke := "A joke."
    chromeOk := true
    wikiNet := fun _ => none
    weatherNet := fun _ => WeatherResp.current "Sunny" "30" "40" "10"
    newsNet := NewsResp.okNews ["headline one"]
    dictNet := fun _ => DictResp.notFound }

/-! ## Helper lemmas about the alarm loop -/

/-- While every polled reading misses the target, the loop emits nothing,
does not terminate, and sleeps 10 seconds per poll. -/
theorem alarmRunAux_miss (clock : Nat → String) (t : String) :
    ∀ (k i : Nat), (∀ j, j < k → clock (i + j) ≠ t) →
      alarmRunAux clock t i k = ([], false, 10 * k) := by
  intro k
  induction k with
  | zero => intro i _; rfl
  | succ k ih =>
    intro i h
    have h0 : clock i ≠ t := by have := h 0 (Nat.succ_pos k); simpa using this
    have hrest : ∀ j, j < k → clock ((i + 1) + j) ≠ t := by
      intro j hj
      have := h (j + 1) (Nat.succ_lt_succ hj)
      rwa [show i + (j + 1) = (i + 1) + j by omega] at this
    simp only [alarmRunAux]
    rw [if_neg h0, ih (i + 1) hrest, show 10 + 10 * k = 10 * (k + 1) by omega]

/-- Once the first matching reading is within the polled range, the loop
emits the notification exactly once, terminates, and has slept 10 seconds
for each earlier missed poll. -/
theorem alarmRunAux_hit (clock : Nat → String) (t : String) :
    ∀ (k i d : Nat), (∀ j, j < d → clock (i + j) ≠ t) → clock (i + d) = t → d < k →
      alarmRunAux clock t i k = (["Alarm ringing"], true, 10 * d) := by
  intro k
  induction k with
  | zero => intro i d _ _ hd; exact absurd hd (Nat.not_lt_zero d)
  | succ k ih =>
    intro i d hmiss hhit hd
    cases d with
    | zero =>
      simp only [alarmRunAux]
      rw [if_pos (by simpa using hhit)]
    | succ d =>
      have h0 : clock i ≠ t := by have := hmiss 0 (Nat.succ_pos d); simpa using this
      have hrest : ∀ j, j < d → clock ((i + 1) + j) ≠ t := by
        intro j hj
        have := hmiss (j + 1) (Nat.succ_lt_succ hj)
        rwa [show i + (j + 1) = (i + 1) + j by omega] at this
      have hhit2 : clock ((i + 1) + d) = t := by
        rwa [show i + (d + 1) = (i + 1) + d by omega] at hhit
      simp only [alarmRunAux]
      rw [if_neg h0, ih (i + 1) d hrest hhit2 (Nat.lt_of_succ_lt_succ hd),
        show 10 + 10 * d = 10 * (d + 1) by omega]

/-! ## Claim theorems -/

/-- C1: any input string the evaluator accepts parses to an expression
inside the restricted grammar (literals, allowed binary operators, unary
negation, allow-listed calls and names); contrapositively, every string
referencing an identifier, call target, or literal outside the allow-list,
or using any other node shape (attribute access, subscripting, ...), fails
with the single `EvaluationError`.  The evaluator is a pure function over
the fixed `SAFE_NAMES` table, so no host capability outside it is ever
executed or referenced; the two closed conjuncts exhibit this on the
spec's flagship attack strings. -/
theorem eval_rejects_outside_allowlist :
    (∀ (h : MathHost) (s : String) (v : PyVal),
        _safe_eval h s = .ok v → ∃ e, parseExprStr s = some e ∧ safeShape e = true)
  ∧ (∀ h : MathHost, _safe_eval h "__import__('os')" = .error .invalidExpression)
  ∧ (∀ h : MathHost, _safe_eval h "os.system('rm')" = .error .invalidExpression) := by
  refine ⟨?_, fun h => rfl, fun h => rfl⟩
  intro h s v hv
  cases hp : parseExprStr s with
  | none =>
    rw [show _safe_eval h s = .error .invalidExpression from by
      simp [_safe_eval, hp]] at hv
    exact absurd hv (by simp)
  | some e =>
    cases he : evalNode h e with
    | none =>
      rw [show _safe_eval h s = .error .invalidExpression from by
        simp [_safe_eval, hp, he]] at hv
      exact absurd hv (by simp)
    | some w =>
      rw [show _safe_eval h s = .ok w from by simp [_safe_eval, hp, he]] at hv
      injection hv with hw
      subst hw
      exact ⟨e, rfl, evalNode_safeShape h e w he⟩

/-- Witness for C1 at a concrete accepted input. -/
theorem eval_rejects_outside_allowlist_witness :
    _safe_eval sampleHost "2" = .ok (.vint 2)
  ∧ ∃ e, parseExprStr "2" = some e ∧ safeShape e = true :=
  ⟨rfl, eval_rejects_outside_allowlist.1 sampleHost "2" (.vint 2) rfl⟩

/-- C2: routing priority and city extraction of the weather rule.  With a
configured key (here: the environment variable unset, so the hard-coded
default key applies), "what is the weather in paris" triggers exactly one
weather lookup for city "paris" -- not the Calculate rule, despite starting
with "what is" -- and its reply is the weather reply; "weather in new york"
extracts city "new york"; the bare "weather" produces the clarification
question with no effects, in particular no lookup. -/
theorem weather_routing_priority (env : Env) (mem : Mem)
    (hk : env.weatherKeyEnv = none) :
    ((process_command env mem "what is the weather in paris").2.2
        = [.netWeather "paris"]
      ∧ (process_command env mem "what is the weather in paris").1
        = (get_weather env "paris").1)
  ∧ ((process_command env mem "weather in new york").2.2 = [.netWeather "new york"]
      ∧ (process_command env mem "weather in new york").1
        = (get_weather env "new york").1)
  ∧ process_command env mem "weather"
      = ("Which city would you like the weather for?", mem, []) := by
  have hkey : WEATHER_API_KEY env = "a201655e97c349c993883936250411" := by
    rw [WEATHER_API_KEY, hk]; rfl
  have hW : ∀ city, (get_weather env city).2 = [.netWeather city] := by
    intro city
    simp only [get_weather, hkey]
    rw [if_neg (by decide)]
    cases env.weatherNet city with
    | current c t hu w => rfl
    | errorMsg m => cases m <;> rfl
    | other => rfl
    | netFail => rfl
  exact ⟨⟨hW "paris", rfl⟩, ⟨hW "new york", rfl⟩, rfl⟩

/-- Witness for C2 at the concrete sample environment. -/
theorem weather_routing_priority_witness :
    ((process_command sampleEnv [] "what is the weather in paris").2.2
        = [.netWeather "paris"]
      ∧ (process_command sampleEnv [] "what is the weather in paris").1
        = (get_weather sampleEnv "paris").1)
  ∧ ((process_command sampleEnv [] "weather in new york").2.2
        = [.netWeather "new york"]
      ∧ (process_command sampleEnv [] "weather in new york").1
        = (get_weather sampleEnv "new york").1)
  ∧ process_command sampleEnv [] "weather"
      = ("Which city would you like the weather for?", [], []) :=
  weather_routing_priority sampleEnv [] rfl

/-- C3: on the exactly-representable fragment the evaluator returns the
mathematically correct value for every host math library: whenever the
spec-side denotation `intVal` assigns a parsed expression the exact integer
`n`, `_safe_eval` returns `int n`; `sqrt` of a perfect square is exact as
soon as the host's `sqrt` is (IEEE `math.sqrt` is correctly rounded, hence
exact there); and the spec's examples hold with standard precedence:
`2 + 3 * 4` is 14 (not 20), `10 // 3` is 3.  (The transcendental entries
`sin`, `cos`, `tan`, `log`, `log10`, `pi`, `e` have irrational
mathematically-correct values, approximated by the host's floats; they are
outside the exact fragment.) -/
theorem evaluator_mathematically_correct :
    (∀ (h : MathHost) (s : String) (e : PExpr) (n : Int),
        parseExprStr s = some e → intVal e = some n → _safe_eval h s = .ok (.vint n))
  ∧ (∀ h : MathHost, h.sqrt 16 = 4 → _safe_eval h "sqrt(16)" = .ok (.vfloat 4))
  ∧ (∀ h : MathHost,
        _safe_eval h "2 + 3 * 4" = .ok (.vint 14)
      ∧ _safe_eval h "10 // 3" = .ok (.vint 3)) := by
  refine ⟨?_, ?_, fun h => ⟨rfl, rfl⟩⟩
  · intro h s e n hp hv
    simp only [_safe_eval, hp, intVal_evalNode h e n hv]
  · intro h hs
    have hs2 : h.sqrt ((16 : Int) : Rat) = 4 := by simpa using hs
    rw [show _safe_eval h "sqrt(16)" = .ok (.vfloat (h.sqrt ((16 : Int) : Rat))) from rfl,
      hs2]

/-- Witness for C3: the parse of `2 + 3 * 4` (multiplication binds
tighter), its exact value, and the evaluated examples at the sample host. -/
theorem evaluator_mathematically_correct_witness :
    parseExprStr "2 + 3 * 4"
      = some (.binop .add (.const (.pint 2))
          (.binop .mult (.const (.pint 3)) (.const (.pint 4))))
  ∧ intVal (.binop .add (.const (.pint 2))
        (.binop .mult (.const (.pint 3)) (.const (.pint 4)))) = some 14
  ∧ sampleHost.sqrt 16 = 4
  ∧ _safe_eval sampleHost "2 + 3 * 4" = .ok (.vint 14)
  ∧ _safe_eval sampleHost "sqrt(16)" = .ok (.vfloat 4) :=
  ⟨rfl, rfl, rfl,
    evaluator_mathematically_correct.1 sampleHost "2 + 3 * 4" _ 14 rfl rfl,
    evaluator_mathematically_correct.2.1 sampleHost rfl⟩

/-- C4 counterexample: the claim says `2^3` evaluates to 8, but the source
text `^` parses to `ast.BitXor`, which is not in `ALLOWED_OPERATORS`, so
the evaluator rejects it. -/
theorem caret_power_counterexample :
    _safe_eval sampleHost "2^3" = .error .invalidExpression := rfl

/-- C4 (amended): `^` parses as bitwise xor and is rejected by the
evaluator; power is spelled `**` (`ast.Pow`), under which `2**3` is 8;
`/` is true (float) division, `//` floor division, `%` modulo, for every
host math library. -/
theorem power_and_division_semantics (h : MathHost) :
    parseExprStr "2^3" = some (.binop .bitXor (.const (.pint 2)) (.const (.pint 3)))
  ∧ _safe_eval h "2^3" = .error .invalidExpression
  ∧ _safe_eval h "2**3" = .ok (.vint 8)
  ∧ _safe_eval h "7 / 2" = .ok (.vfloat (7 / 2))
  ∧ _safe_eval h "10 // 3" = .ok (.vint 3)
  ∧ _safe_eval h "7 % 3" = .ok (.vint 1) :=
  ⟨rfl, rfl, rfl, rfl, rfl, rfl⟩

/-- C5 counterexample: a whitespace-only utterance (a single space) is
*not* short-circuited to the "didn't hear anything" response: Python's
`if not command:` only catches the empty string, so `" "` strips to `""`,
falls through every predicate, and lands in the Unrecognized fallback. -/
theorem whitespace_not_short_circuited :
    process_command sampleEnv [] " "
        = ("I didn't understand that. Say 'yes' to search the web.", [], [])
  ∧ ("I didn't understand that. Say 'yes' to search the web."
      ≠ "I didn't hear anything. Please say that again or type your command.") :=
  ⟨rfl, by decide⟩

/-- C5 (amended): only the *empty* utterance short-circuits to the
"didn't hear anything" response (before any predicate runs, with no
effects); a non-empty whitespace-only utterance normalizes to the empty
command, fails every trigger predicate, and reaches the Unrecognized
fallback -- still invoking no handler and producing no effects. -/
theorem empty_short_circuit_whitespace_fallback :
    (∀ (env : Env) (mem : Mem),
        process_command env mem ""
          = ("I didn't hear anything. Please say that again or type your command.",
              mem, []))
  ∧ (∀ (env : Env) (mem : Mem) (s : String),
        s ≠ "" → sLowerTrim s = "" →
        process_command env mem s
          = ("I didn't understand that. Say 'yes' to search the web.", mem, [])) := by
  refine ⟨fun env mem => rfl, ?_⟩
  intro env mem s hs ht
  simp only [process_command]
  rw [if_neg hs, ht]
  rfl

/-- Witness for C5's amended statement. -/
theorem empty_whitespace_witness :
    ((" " : String) ≠ "")
  ∧ sLowerTrim " " = ""
  ∧ process_command sampleEnv [] ""
      = ("I didn't hear anything. Please say that again or type your command.", [], [])
  ∧ process_command sampleEnv [] " "
      = ("I didn't understand that. Say 'yes' to search the web.", [], []) :=
  ⟨by decide, rfl, empty_short_circuit_whitespace_fallback.1 sampleEnv [],
    empty_short_circuit_whitespace_fallback.2 sampleEnv [] " " (by decide) rfl⟩

/-- C6: memory round-trip.  Routing "call me Ada" confirms with the
capitalized name and synchronously flushes the record; a following
"my name" query answers "Ada"; and a restart -- reloading memory from the
storage file the flush produced -- still answers "Ada", for every
environment and every prior file state. -/
theorem name_memory_roundtrip (env : Env) (f0 : FileState) :
    (process_command env [] "call me Ada").1 = "Okay, I'll call you Ada."
  ∧ (process_command env (process_command env [] "call me Ada").2.1
        "what is my name").1 = "Your name is Ada."
  ∧ (process_command env
        (_load_memory (applyEffects f0 (process_command env [] "call me Ada").2.2))
        "what is my name").1 = "Your name is Ada." :=
  ⟨rfl, rfl, rfl⟩

/-- C7: alarm scheduling.  "set alarm for 7:30" extracts and zero-pads the
target to "07:30", spawns exactly one polling background unit, and
confirms.  Against any clock stream whose first "07:30" reading is the
n-th poll: every run of at most n polls emits nothing (and has slept 10
seconds per poll); every longer run emits exactly one "Alarm ringing"
notification, terminates, and never emits again within the same run. -/
theorem alarm_single_notification (env : Env) (mem : Mem)
    (clock : Nat → String) (n : Nat)
    (hn : clock n = "07:30") (hbefore : ∀ m, m < n → clock m ≠ "07:30") :
    process_command env mem "set alarm for 7:30"
      = ("Alarm set for 07:30", mem, [.spawnAlarm "07:30"])
  ∧ (∀ k, k ≤ n → alarmRun clock "07:30" k = ([], false, 10 * k))
  ∧ (∀ k, n < k → alarmRun clock "07:30" k = (["Alarm ringing"], true, 10 * n)) := by
  refine ⟨rfl, ?_, ?_⟩
  · intro k hk
    exact alarmRunAux_miss clock "07:30" k 0 fun j hj => by
      simpa using hbefore j (Nat.lt_of_lt_of_le hj hk)
  · intro k hk
    exact alarmRunAux_hit clock "07:30" k 0 n
      (fun j hj => by simpa using hbefore j hj) (by simpa using hn) hk

/-- A clock stream whose readings reach "07:30" at the fourth poll. -/
def sampleClock (i : Nat) : String := if 3 ≤ i then "07:30" else "07:00"

/-- Witness for C7 at the sample clock. -/
theorem alarm_single_notification_witness :
    sampleClock 3 = "07:30"
  ∧ (∀ m, m < 3 → sampleClock m ≠ "07:30")
  ∧ (process_command sampleEnv [] "set alarm for 7:30"
        = ("Alarm set for 07:30", [], [.spawnAlarm "07:30"])
    ∧ (∀ k, k ≤ 3 → alarmRun sampleClock "07:30" k = ([], false, 10 * k))
    ∧ (∀ k, 3 < k → alarmRun sampleClock "07:30" k = (["Alarm ringing"], true, 10 * 3))) :=
  ⟨rfl, by decide,
    alarm_single_notification sampleEnv [] sampleClock 3 rfl (by decide)⟩

/-- C8: memory load never fails its caller -- every storage state yields a
record (the empty one on a missing, unreadable, or malformed file, the
parsed one otherwise) -- and a record without the name key makes the
"my name" handler answer the "not set yet" default instead of crashing. -/
theorem memory_load_never_fails :
    _load_memory .missing = []
  ∧ _load_memory .unreadable = []
  ∧ _load_memory .malformed = []
  ∧ (∀ m : Mem, _load_memory (.stored m) = m)
  ∧ (∀ (env : Env) (mem : Mem), memLookup mem "name" = none →
        (process_command env mem "what is my name").1 = "Your name is not set yet.") := by
  refine ⟨rfl, rfl, rfl, fun m => rfl, ?_⟩
  intro env mem hm
  rw [show (process_command env mem "what is my name").1
      = "Your name is " ++ (memLookup mem "name").getD "not set yet" ++ "." from rfl, hm]
  rfl

/-- Witness for C8 at the empty record. -/
theorem memory_load_never_fails_witness :
    memLookup [] "name" = none
  ∧ (process_command sampleEnv [] "what is my name").1 = "Your name is not set yet." :=
  ⟨rfl, memory_load_never_fails.2.2.2.2 sampleEnv [] rfl⟩

/-- C9 counterexample: with the weather environment variable *absent*
(the claim's "key is absent"), the hard-coded default key keeps the
feature enabled -- a weather request performs a network call and no
startup warning is emitted -- contradicting the claim that an absent key
disables the feature with a warning and zero network calls. -/
theorem weather_absent_key_counterexample :
    sampleEnv.weatherKeyEnv = none
  ∧ (process_command sampleEnv [] "weather in delhi").2.2 = [.netWeather "delhi"]
  ∧ weatherWarnMsg ∉ startupWarnings sampleEnv :=
  ⟨rfl, rfl, by decide⟩

/-- C9 (amended): the weather feature is disabled exactly when the
configured key *value* is empty (the environment variable set to the empty
string, since the source embeds a non-empty default): then the one-time
startup warning fires and a weather request returns the
configuration-missing message with zero network calls and no crash. -/
theorem weather_disabled_on_empty_key (env : Env) (mem : Mem)
    (hk : env.weatherKeyEnv = some "") :
    WEATHER_API_KEY env = ""
  ∧ weatherWarnMsg ∈ startupWarnings env
  ∧ process_command env mem "weather in delhi"
      = ("Weather is not configured. Set DELTA_WEATHER_API_KEY to enable weather.",
          mem, []) := by
  have hkey : WEATHER_API_KEY env = "" := by rw [WEATHER_API_KEY, hk]; rfl
  have hget : get_weather env "delhi"
      = ("Weather is not configured. Set DELTA_WEATHER_API_KEY to enable weather.", []) := by
    simp [get_weather, hkey]
  refine ⟨hkey, ?_, ?_⟩
  · simp [startupWarnings, hkey]
  · rw [show process_command env mem "weather in delhi"
        = ((get_weather env "delhi").1, mem, (get_weather env "delhi").2) from rfl, hget]

/-- The sample environment with the weather key explicitly set empty. -/
def sampleEnvEmptyKey : Env := { sampleEnv with weatherKeyEnv := some "" }

/-- Witness for C9's amended statement. -/
theorem weather_disabled_on_empty_key_witness :
    WEATHER_API_KEY sampleEnvEmptyKey = ""
  ∧ weatherWarnMsg ∈ startupWarnings sampleEnvEmptyKey
  ∧ process_command sampleEnvEmptyKey [] "weather in delhi"
      = ("Weather is not configured. Set DELTA_WEATHER_API_KEY to enable weather.",
          [], []) :=
  weather_disabled_on_empty_key sampleEnvEmptyKey [] rfl

/-- C10 counterexample: the evaluator does not always return a number or
fail -- the bare allow-listed name "sqrt" evaluates to the math *function
object* itself (`SAFE_NAMES["sqrt"]`), a non-numeric success. -/
theorem evaluator_returns_function_object :
    _safe_eval sampleHost "sqrt" = .ok (.vfun "sqrt") := rfl

/-- C10 (amended): the evaluator is total with a single failure mode: for
every input string it either returns a value (a number, or a math function
object when the expression is a bare allow-listed function name) or fails
with the one `EvaluationError`; runtime arithmetic faults inside the
grammar -- division by zero under `/`, `//`, `%`, `sqrt` of a negative,
`factorial` of a negative -- are reported as that same error; and the
router's Calculate branch converts the failure into the apology reply. -/
theorem evaluator_total_single_failure :
    (∀ (h : MathHost) (s : String),
        (∃ v, _safe_eval h s = .ok v) ∨ _safe_eval h s = .error .invalidExpression)
  ∧ (∀ h : MathHost,
        _safe_eval h "1/0" = .error .invalidExpression
      ∧ _safe_eval h "10 // 0" = .error .invalidExpression
      ∧ _safe_eval h "7 % 0" = .error .invalidExpression
      ∧ _safe_eval h "sqrt(-1)" = .error .invalidExpression
      ∧ _safe_eval h "factorial(-5)" = .error .invalidExpression)
  ∧ (∀ (env : Env) (mem : Mem),
        process_command env mem "calculate 1/0"
          = ("I couldn't calculate that.", mem, [.evaluated "1/0"])) := by
  refine ⟨?_, fun h => ⟨rfl, rfl, rfl, rfl, rfl⟩, fun env mem => rfl⟩
  intro h s
  cases hv : _safe_eval h s with
  | ok v => exact Or.inl ⟨v, rfl⟩
  | error err => cases err; exact Or.inr rfl

end Delta


